import Mathlib

/-!
Verification of the LibreAssistant Tauri→Python command bridge
(`src/frontend/src-tauri/src/lib.rs`) against its natural-language
specification.

The development shallowly embeds:

* the JSON data model (`Json`), with a concrete printer (`Json.printV`,
  modelling `serde_json::to_string`) and a concrete recursive-descent
  parser (`parseJson`, modelling `serde_json`'s reader).  JSON numbers are
  modelled as integers: the repository only ever places strings and `i32`
  values into request maps, and floating point is outside the embedding.
* the `CommandPayload` / `CommandResponse` serde types, with the derived
  field-decoding behaviour of `#[derive(Deserialize)]` (mandatory
  `success : bool`, all other fields optional, unknown fields ignored,
  duplicate known fields rejected).
* a filesystem/path model (`Path` as a list of components from the root,
  `FS` as the finite set of entries that exist) and, over it, the whole
  `call_python_backend` function: workspace discovery, the
  build-artifact correction pass, the production branch, executable
  resolution, temp-file write, process invocation outcome, cleanup and
  response parsing.
* the request-map-building adapters `save_bookmark`, `get_chat_history`
  and `search_web`.
-/

/-- JSON values as `serde_json::Value`, with numbers restricted to
integers (see the file comment).  Objects keep their member list; key
order is irrelevant to the equivalence used below. -/
inductive Json where
  | null : Json
  | bool : Bool → Json
  | num : Int → Json
  | str : String → Json
  | arr : List Json → Json
  | obj : List (String × Json) → Json
deriving Repr

/-- Decimal digit character for `d < 10` (`'0'` … `'9'`). -/
def digitChar (d : Nat) : Char := Char.ofNat (48 + d)

/-- Decimal digits of a natural number, most significant first
(`natDigits 407 = ['4','0','7']`). -/
def natDigits (n : Nat) : List Char :=
  if _h : n < 10 then [digitChar n]
  else natDigits (n / 10) ++ [digitChar (n % 10)]
decreasing_by exact Nat.div_lt_self (by omega) (by omega)

/-- Decimal rendering of an integer, a minus sign for negatives. -/
def printInt (i : Int) : List Char :=
  if i < 0 then '-' :: natDigits i.natAbs else natDigits i.natAbs

/-- Lower-case hexadecimal digit character for `d < 16`. -/
def hexDigitChar (d : Nat) : Char :=
  if d < 10 then digitChar d else Char.ofNat (87 + d)

/-- JSON escaping of one character inside a string literal, as the
printer emits it: `\"`, `\\`, `\n`, `\t`, `\r` short forms, `\u00XX`
for the remaining control characters, every other character verbatim. -/
def escChar (c : Char) : List Char :=
  if c = '"' then ['\\', '"']
  else if c = '\\' then ['\\', '\\']
  else if c = '\n' then ['\\', 'n']
  else if c = '\t' then ['\\', 't']
  else if c = '\r' then ['\\', 'r']
  else if c.toNat < 32 then
    ['\\', 'u', '0', '0', hexDigitChar (c.toNat / 16), hexDigitChar (c.toNat % 16)]
  else [c]

/-- JSON escaping of a character list (the body of a string literal). -/
def escList (l : List Char) : List Char := (l.map escChar).flatten

/-- Printed form of a JSON string literal, quotes included. -/
def printStr (s : String) : List Char := '"' :: escList s.data ++ ['"']

mutual

/-- The JSON printer (`serde_json::to_string`): compact form, no
whitespace, members in list order. -/
def Json.printV : Json → List Char
  | .null => ['n', 'u', 'l', 'l']
  | .bool b => if b then ['t', 'r', 'u', 'e'] else ['f', 'a', 'l', 's', 'e']
  | .num i => printInt i
  | .str s => printStr s
  | .arr [] => ['[', ']']
  | .arr (v :: vs) => '[' :: (Json.printV v ++ Json.printItemsTail vs) ++ [']']
  | .obj [] => ['{', '}']
  | .obj (m :: ms) => '{' :: (Json.printMember m ++ Json.printMembersTail ms) ++ ['}']

/-- Remaining array items, each preceded by a comma. -/
def Json.printItemsTail : List Json → List Char
  | [] => []
  | v :: vs => ',' :: (Json.printV v ++ Json.printItemsTail vs)

/-- One object member: printed key, colon, printed value. -/
def Json.printMember : String × Json → List Char
  | (k, v) => printStr k ++ ':' :: Json.printV v

/-- Remaining object members, each preceded by a comma. -/
def Json.printMembersTail : List (String × Json) → List Char
  | [] => []
  | m :: ms => ',' :: (Json.printMember m ++ Json.printMembersTail ms)

end

/-- JSON insignificant whitespace. -/
def isWsChar (c : Char) : Bool := c = ' ' || c = '\n' || c = '\t' || c = '\r'

/-- Drop leading JSON whitespace. -/
def skipWs : List Char → List Char
  | [] => []
  | c :: rest => if isWsChar c then skipWs rest else c :: rest

/-- Value of one hexadecimal digit character. -/
def hexVal (c : Char) : Option Nat :=
  if 48 ≤ c.toNat ∧ c.toNat ≤ 57 then some (c.toNat - 48)
  else if 97 ≤ c.toNat ∧ c.toNat ≤ 102 then some (c.toNat - 87)
  else if 65 ≤ c.toNat ∧ c.toNat ≤ 70 then some (c.toNat - 55)
  else none

/-- The character a short JSON escape `\e` denotes, `none` when `e` is
not a legal escape head (`\uXXXX` is handled separately). -/
def unescChar (e : Char) : Option Char :=
  if e = '"' then some '"'
  else if e = '\\' then some '\\'
  else if e = '/' then some '/'
  else if e = 'n' then some '\n'
  else if e = 't' then some '\t'
  else if e = 'r' then some '\r'
  else if e = 'b' then some (Char.ofNat 8)
  else if e = 'f' then some (Char.ofNat 12)
  else none

/-- Parse the body of a JSON string literal (the opening quote already
consumed): the decoded characters and the input after the closing
quote. -/
def parseStringBody : List Char → Option (List Char × List Char)
  | [] => none
  | c :: rest =>
    if c = '"' then some ([], rest)
    else if c = '\\' then
      match rest with
      | [] => none
      | e :: rest2 =>
        if e = 'u' then
          match rest2 with
          | h1 :: h2 :: h3 :: h4 :: rest3 =>
            match hexVal h1, hexVal h2, hexVal h3, hexVal h4 with
            | some a, some b, some c2, some d =>
              match parseStringBody rest3 with
              | some (l, r) => some (Char.ofNat (((a * 16 + b) * 16 + c2) * 16 + d) :: l, r)
              | none => none
            | _, _, _, _ => none
          | _ => none
        else
          match unescChar e with
          | some d =>
            match parseStringBody rest2 with
            | some (l, r) => some (d :: l, r)
            | none => none
          | none => none
    else if c.toNat < 32 then none
    else
      match parseStringBody rest with
      | some (l, r) => some (c :: l, r)
      | none => none

/-- Consume a maximal run of decimal digits, folding them onto `acc`. -/
def parseDigitsAux (acc : Nat) : List Char → Nat × List Char
  | [] => (acc, [])
  | c :: rest =>
    if c.isDigit then parseDigitsAux (acc * 10 + (c.toNat - 48)) rest else (acc, c :: rest)

/-- Parse a JSON integer numeral: an optional minus sign and a digit
run (fractions and exponents are outside the model, see the file
comment). -/
def parseNumber : List Char → Option (Json × List Char)
  | [] => none
  | c :: rest =>
    if c = '-' then
      match rest with
      | [] => none
      | d :: rest2 =>
        if d.isDigit then
          let p := parseDigitsAux (d.toNat - 48) rest2
          some (.num (-(p.1 : Int)), p.2)
        else none
    else if c.isDigit then
      let p := parseDigitsAux (c.toNat - 48) rest
      some (.num (p.1 : Int), p.2)
    else none

mutual

/-- Fuel-indexed recursive-descent parser for one JSON value; returns
the value and the unconsumed input. -/
def parseValue : Nat → List Char → Option (Json × List Char)
  | 0, _ => none
  | fuel + 1, input =>
    match skipWs input with
    | [] => none
    | c :: rest =>
      if c = 'n' then
        match rest with
        | 'u' :: 'l' :: 'l' :: r => some (.null, r)
        | _ => none
      else if c = 't' then
        match rest with
        | 'r' :: 'u' :: 'e' :: r => some (.bool true, r)
        | _ => none
      else if c = 'f' then
        match rest with
        | 'a' :: 'l' :: 's' :: 'e' :: r => some (.bool false, r)
        | _ => none
      else if c = '"' then
        match parseStringBody rest with
        | some (l, r) => some (.str (String.mk l), r)
        | none => none
      else if c = '[' then
        match skipWs rest with
        | [] => none
        | d :: rest2 =>
          if d = ']' then some (.arr [], rest2)
          else
            match parseItems fuel (d :: rest2) with
            | some (l, r) => some (.arr l, r)
            | none => none
      else if c = '{' then
        match skipWs rest with
        | [] => none
        | d :: rest2 =>
          if d = '}' then some (.obj [], rest2)
          else
            match parseMembers fuel (d :: rest2) with
            | some (ms, r) => some (.obj ms, r)
            | none => none
      else parseNumber (c :: rest)

/-- Parse a nonempty comma-separated item list and the closing `]`. -/
def parseItems : Nat → List Char → Option (List Json × List Char)
  | 0, _ => none
  | fuel + 1, input =>
    match parseValue fuel input with
    | none => none
    | some (v, rest) =>
      match skipWs rest with
      | [] => none
      | d :: rest2 =>
        if d = ',' then
          match parseItems fuel rest2 with
          | some (vs, r) => some (v :: vs, r)
          | none => none
        else if d = ']' then some ([v], rest2)
        else none

/-- Parse a nonempty comma-separated member list and the closing `}`. -/
def parseMembers : Nat → List Char → Option (List (String × Json) × List Char)
  | 0, _ => none
  | fuel + 1, input =>
    match skipWs input with
    | [] => none
    | c :: rest =>
      if c = '"' then
        match parseStringBody rest with
        | none => none
        | some (k, rest2) =>
          match skipWs rest2 with
          | [] => none
          | d :: rest3 =>
            if d = ':' then
              match parseValue fuel rest3 with
              | none => none
              | some (v, rest4) =>
                match skipWs rest4 with
                | [] => none
                | e :: rest5 =>
                  if e = ',' then
                    match parseMembers fuel rest5 with
                    | some (ms, r) => some ((String.mk k, v) :: ms, r)
                    | none => none
                  else if e = '}' then some ([(String.mk k, v)], rest5)
                  else none
            else none
      else none

end

/-- The JSON reader (`serde_json::from_str`'s front end): parse one
value and require only whitespace after it. -/
def parseJson (s : String) : Option Json :=
  match parseValue (s.data.length + 1) s.data with
  | some (v, rest) => if skipWs rest = [] then some v else none
  | none => none

/-- The request payload: `#[serde(flatten)]` over a
`HashMap<String, serde_json::Value>`, modelled as the entry list in the
map's iteration order (the equivalence used below is order-blind). -/
structure CommandPayload where
  data : List (String × Json)

/-- `serde_json::to_string(&payload)`: the flattened map serializes as
one flat JSON object whose members are the map's entries. -/
def encodePayload (p : CommandPayload) : String :=
  String.mk (Json.printV (.obj p.data))

/-- The response record of `lib.rs`: mandatory `success`, nineteen
optional fields (`r#type` is serialized as `type`; `count` is an `i32`). -/
structure CommandResponse where
  success : Bool
  error : Option String := none
  message : Option String := none
  response : Option String := none
  timestamp : Option String := none
  url : Option String := none
  title : Option String := none
  content : Option String := none
  type : Option String := none
  data : Option Json := none
  count : Option Int := none
  analysis : Option String := none
  keywords : Option (List String) := none
  summary : Option String := none
  id : Option String := none
  session_id : Option String := none
  role : Option String := none
  messages : Option (List Json) := none
  model : Option String := none
  context_summary : Option Json := none
  history : Option (List Json) := none
deriving Repr

/-- Look one known field up in the decoded object: absent, present
once, or a serde `duplicate field` error. -/
def getField (entries : List (String × Json)) (name : String) : Except String (Option Json) :=
  match entries.filter (fun p => p.1 == name) with
  | [] => .ok none
  | [p] => .ok (some p.2)
  | _ => .error ("duplicate field " ++ name)

/-- `Option<String>` field decoding: absent or `null` is `none`, a
string is `some`, anything else a type error. -/
def asOptString : Option Json → Except String (Option String)
  | none => .ok none
  | some .null => .ok none
  | some (.str s) => .ok (some s)
  | some _ => .error "invalid type: expected a string"

/-- `Option<i32>` field decoding: integer in `i32` range. -/
def asOptI32 : Option Json → Except String (Option Int)
  | none => .ok none
  | some .null => .ok none
  | some (.num n) =>
    if -(2 ^ 31) ≤ n ∧ n < 2 ^ 31 then .ok (some n)
    else .error "number out of range for i32"
  | some _ => .error "invalid type: expected an integer"

/-- Every element of a `Vec<String>` must be a string. -/
def asStringList : List Json → Except String (List String)
  | [] => .ok []
  | .str s :: rest => (asStringList rest).map (fun l => s :: l)
  | _ :: _ => .error "invalid type: expected a string"

/-- `Option<Vec<String>>` field decoding. -/
def asOptStringList : Option Json → Except String (Option (List String))
  | none => .ok none
  | some .null => .ok none
  | some (.arr l) => (asStringList l).map some
  | some _ => .error "invalid type: expected an array"

/-- `Option<Vec<serde_json::Value>>` field decoding. -/
def asOptJsonList : Option Json → Except String (Option (List Json))
  | none => .ok none
  | some .null => .ok none
  | some (.arr l) => .ok (some l)
  | some _ => .error "invalid type: expected an array"

/-- `Option<serde_json::Value>` field decoding: `null` is `none`, any
other value is kept. -/
def asOptAny : Option Json → Except String (Option Json)
  | none => .ok none
  | some .null => .ok none
  | some v => .ok (some v)

/-- The derived `Deserialize` of `CommandResponse` applied to an
already-parsed JSON object: `success` is required and boolean, every
other known field is optional with the listed element type, unknown
members are ignored, a duplicated known field is an error. -/
def decodeResponseObj (entries : List (String × Json)) : Except String CommandResponse := do
  let success ← match ← getField entries "success" with
    | some (.bool b) => Except.ok b
    | some _ => Except.error "invalid type for field success"
    | none => Except.error "missing field success"
  let error ← asOptString (← getField entries "error")
  let message ← asOptString (← getField entries "message")
  let response ← asOptString (← getField entries "response")
  let timestamp ← asOptString (← getField entries "timestamp")
  let url ← asOptString (← getField entries "url")
  let title ← asOptString (← getField entries "title")
  let content ← asOptString (← getField entries "content")
  let type ← asOptString (← getField entries "type")
  let data ← asOptAny (← getField entries "data")
  let count ← asOptI32 (← getField entries "count")
  let analysis ← asOptString (← getField entries "analysis")
  let keywords ← asOptStringList (← getField entries "keywords")
  let summary ← asOptString (← getField entries "summary")
  let id ← asOptString (← getField entries "id")
  let session_id ← asOptString (← getField entries "session_id")
  let role ← asOptString (← getField entries "role")
  let messages ← asOptJsonList (← getField entries "messages")
  let model ← asOptString (← getField entries "model")
  let context_summary ← asOptAny (← getField entries "context_summary")
  let history ← asOptJsonList (← getField entries "history")
  Except.ok {
    success := success, error := error, message := message, response := response,
    timestamp := timestamp, url := url, title := title, content := content,
    type := type, data := data, count := count, analysis := analysis,
    keywords := keywords, summary := summary, id := id, session_id := session_id,
    role := role, messages := messages, model := model,
    context_summary := context_summary, history := history }

/-- `serde_json::from_str::<CommandResponse>`: parse the text as JSON,
require the outer value to be an object, then decode the fields. -/
def decodeResponse (s : String) : Except String CommandResponse :=
  match parseJson s with
  | none => .error "expected value"
  | some (.obj entries) => decodeResponseObj entries
  | some _ => .error "invalid type: not an object"

/-- An absolute filesystem path: its components below the root.  `[]`
is the filesystem root, whose `parent()` is `None` and whose
`file_name()` is `None`, as for `PathBuf`. -/
abbrev FsPath := List String

/-- The filesystem: the finite set of paths (directories and files)
that exist, as `Path::exists` observes it. -/
structure FS where
  entries : List FsPath
deriving Repr

/-- `Path::exists`. -/
def FS.hasEntry (fs : FS) (p : FsPath) : Bool := fs.entries.contains p

/-- `std::fs::write` (creates or truncates; the entry set gains `p`). -/
def FS.write (fs : FS) (p : FsPath) : FS :=
  ⟨if fs.entries.contains p then fs.entries else p :: fs.entries⟩

/-- `std::fs::remove_file`. -/
def FS.removeFile (fs : FS) (p : FsPath) : FS :=
  ⟨fs.entries.filter (fun q => !(q == p))⟩

/-- `Path::file_name`: the last component, `None` at the root. -/
def fileName (p : FsPath) : Option String := p.getLast?

/-- Unix rendering of a path, for messages (`Display`-like). -/
def pathToString (p : FsPath) : String := "/" ++ String.intercalate "/" p

/-- Rust `{:?}` of a `PathBuf`: the rendered path in double quotes. -/
def quoteDebug (s : String) : String := "\"" ++ s ++ "\""

/-- The first loop of `call_python_backend` (lib.rs 75–81): ascend from
`p` until the current directory has a `backend` or a `frontend` child;
reaching the root without one is the workspace-not-found error. -/
def findWorkspaceRoot (fs : FS) (p : FsPath) : Except String FsPath :=
  if fs.hasEntry (p ++ ["backend"]) || fs.hasEntry (p ++ ["frontend"]) then .ok p
  else
    match _hp : p with
    | [] => .error "Could not find workspace root directory"
    | _ :: _ => findWorkspaceRoot fs p.dropLast
termination_by p.length
decreasing_by simp [_hp, List.length_dropLast]

/-- The build-artifact directory names that trigger the correction pass
(lib.rs 84–86). -/
def isArtifactName (s : Option String) : Bool :=
  s == some "frontend" || s == some "src-tauri" || s == some "debug"

/-- The correction pass's inner loop (lib.rs 87–93): ascend until the
directory is named `browser`; at the root with no parent, stop there. -/
def ascendToBrowser (p : FsPath) : FsPath :=
  if fileName p = some "browser" then p
  else
    match _hp : p with
    | [] => []
    | _ :: _ => ascendToBrowser p.dropLast
termination_by p.length
decreasing_by simp [_hp, List.length_dropLast]

/-- The whole development branch of the backend-path computation
(lib.rs 69–96): find the workspace root, apply the correction pass when
the stopping directory carries a build-artifact name, then descend into
`backend`. -/
def devBackendPath (fs : FS) (cwd : FsPath) : Except String FsPath :=
  match findWorkspaceRoot fs cwd with
  | .error e => .error e
  | .ok root =>
    let root2 := if isArtifactName (fileName root) then ascendToBrowser root else root
    .ok (root2 ++ ["backend"])

/-- What the spawned process did: the spawn itself failed
(`Command::output` returned `Err`), or the process ran to completion
with an exit code and captured output. -/
inductive SpawnOutcome where
  | spawnError (msg : String)
  | completed (exitCode : Nat) (stdoutText : String) (stderrText : String)

/-- One invocation's ambient state: the compile-time flags, the current
working directory, the directory containing the running executable (part
of the process state whether or not the code reads it), the filesystem,
and the worker process's behaviour. -/
structure BridgeEnv where
  debugAssertions : Bool
  windows : Bool
  cwd : FsPath
  exeDir : FsPath
  fs : FS
  spawn : SpawnOutcome

/-- The backend-path computation (lib.rs 69–100): the development
branch walks up from the current directory; the production branch joins
`backend` onto the current directory. -/
def resolveBackendPath (env : BridgeEnv) : Except String FsPath :=
  if env.debugAssertions then devBackendPath env.fs env.cwd
  else .ok (env.cwd ++ ["backend"])

/-- Backend path plus the existence validation (lib.rs 102–105). -/
def checkedBackendPath (env : BridgeEnv) : Except String FsPath :=
  match resolveBackendPath env with
  | .error e => .error e
  | .ok bp =>
    if env.fs.hasEntry bp then .ok bp
    else .error ("Backend directory does not exist: " ++ quoteDebug (pathToString bp))

/-- The Python executable resolution (lib.rs 118–134): prefer the venv
interpreter under the backend directory, OS-specific layout, falling
back to the bare command name. -/
def resolvePythonExecutable (env : BridgeEnv) (backendPath : FsPath) : String :=
  if env.windows then
    if env.fs.hasEntry (backendPath ++ ["venv", "Scripts", "python.exe"]) then
      pathToString (backendPath ++ ["venv", "Scripts", "python.exe"])
    else "python.exe"
  else
    if env.fs.hasEntry (backendPath ++ ["venv", "bin", "python"]) then
      pathToString (backendPath ++ ["venv", "bin", "python"])
    else "python"

/-- The fixed temp-file name of lib.rs line 139. -/
def tempFileName : String := "temp_payload.json"

/-- What one invocation produced: the returned `Result`, the filesystem
afterwards, and the temp path if the request file got written. -/
structure BridgeOutcome where
  result : Except String CommandResponse
  fsAfter : FS
  tempPathWritten : Option FsPath

/-- Shallow embedding of `call_python_backend` (lib.rs 64–172): resolve
and validate the backend directory, serialize the payload, write it to
the fixed temp file, run the process, remove the temp file after
`Command::output` returns, then branch on exit status and parse stdout.
On a spawn error the `?` on line 151 propagates before the cleanup on
line 154 runs.  Two fallible steps outside the claims' scope are
modelled total: `std::env::current_dir()` (the cwd is part of the
environment) and the temp-file `std::fs::write` (whose `map_err` branch
is the write-failure error no claim exercises). -/
def call_python_backend (env : BridgeEnv) (_command : String) (payload : CommandPayload) :
    BridgeOutcome :=
  match checkedBackendPath env with
  | .error e => ⟨.error e, env.fs, none⟩
  | .ok bp =>
    let _payloadJson := encodePayload payload
    let _pythonExe := resolvePythonExecutable env bp
    let tempFile := bp ++ [tempFileName]
    let fs1 := env.fs.write tempFile
    match env.spawn with
    | .spawnError msg =>
      ⟨.error ("Failed to execute Python command: " ++ msg), fs1, some tempFile⟩
    | .completed exitCode stdoutText stderrText =>
      let fs2 := fs1.removeFile tempFile
      if exitCode ≠ 0 then
        ⟨.error ("Python command failed: stderr: " ++ stderrText ++ ", stdout: " ++ stdoutText),
          fs2, some tempFile⟩
      else
        match decodeResponse stdoutText with
        | .error e =>
          ⟨.error ("Failed to parse Python response: " ++ e ++ " (response was: "
              ++ stdoutText ++ ")"), fs2, some tempFile⟩
        | .ok resp => ⟨.ok resp, fs2, some tempFile⟩

/-- The request map `save_bookmark` builds (lib.rs 242–252): `url` and
`title` always, `content` only when supplied. -/
def save_bookmark_payload (url title : String) (content : Option String) : CommandPayload :=
  ⟨[("url", .str url), ("title", .str title)] ++
    (match content with
     | some c => [("content", .str c)]
     | none => [])⟩

/-- The request map `get_chat_history` builds (lib.rs 255–267):
`session_id` and `limit` only when supplied. -/
def get_chat_history_payload (session_id : Option String) (limit : Option Int) : CommandPayload :=
  ⟨(match session_id with
     | some s => [("session_id", .str s)]
     | none => []) ++
    (match limit with
     | some n => [("limit", .num n)]
     | none => [])⟩

/-- The request map `search_web` builds (lib.rs 327–340): `query`
always, `provider` and `limit` only when supplied. -/
def search_web_payload (query : String) (provider : Option String) (limit : Option Int) :
    CommandPayload :=
  ⟨[("query", .str query)] ++
    (match provider with
     | some p => [("provider", .str p)]
     | none => []) ++
    (match limit with
     | some n => [("limit", .num n)]
     | none => [])⟩

/-- Key lookup in a request map, for stating which keys an adapter
emits and with which values. -/
def CommandPayload.lookup (p : CommandPayload) (k : String) : Option Json :=
  p.data.lookup k

mutual

/-- Fuel a `parseValue` call provably needs for this value (one unit
per parser-level recursion step). -/
def Json.fuelV : Json → Nat
  | .null | .bool _ | .num _ | .str _ => 1
  | .arr l => 1 + Json.fuelItems l
  | .obj ms => 1 + Json.fuelMembers ms

/-- Fuel a `parseItems` call provably needs for these items. -/
def Json.fuelItems : List Json → Nat
  | [] => 0
  | v :: vs => 1 + Json.fuelV v + Json.fuelItems vs

/-- Fuel a `parseMembers` call provably needs for these members. -/
def Json.fuelMembers : List (String × Json) → Nat
  | [] => 0
  | (_, v) :: ms => 1 + Json.fuelV v + Json.fuelMembers ms

end

/-- Input does not start with a decimal digit (what a numeral's
continuation must satisfy so that the numeral's parse stops there). -/
def noDigitHead : List Char → Prop
  | [] => True
  | c :: _ => ¬ c.isDigit

/-- Two JSON objects are equivalent as key/value sets: the same
member pairs occur in both, order and multiplicity aside. -/
def sameEntries (a b : List (String × Json)) : Prop := ∀ e, e ∈ a ↔ e ∈ b

/-- `t` occurs verbatim inside `s`. -/
def strContains (s t : String) : Prop := ∃ a b, s = a ++ t ++ b

/-- A known optional field is absent, or present exactly once with a
value the given check accepts. -/
def fieldOk (check : Json → Bool) (entries : List (String × Json)) (name : String) : Bool :=
  match entries.filter (fun p => p.1 == name) with
  | [] => true
  | [p] => check p.2
  | _ => false

/-- Acceptable wire value for an `Option<String>` field. -/
def isStrOrNull : Json → Bool
  | .null => true
  | .str _ => true
  | _ => false

/-- Acceptable wire value for an `Option<i32>` field. -/
def isI32OrNull : Json → Bool
  | .null => true
  | .num n => decide (-(2 ^ 31) ≤ n ∧ n < 2 ^ 31)
  | _ => false

/-- Acceptable wire value for an `Option<Vec<String>>` field. -/
def isStrArrOrNull : Json → Bool
  | .null => true
  | .arr l => l.all (fun v => match v with | .str _ => true | _ => false)
  | _ => false

/-- Acceptable wire value for an `Option<Vec<serde_json::Value>>` field. -/
def isArrOrNull : Json → Bool
  | .null => true
  | .arr _ => true
  | _ => false

/-- The outer-object shape `decodeResponseObj` accepts: a `success`
boolean present exactly once, and each known optional field absent or
present once with a value of its expected type.  Unknown members are
unconstrained. -/
def responseShapeOk (entries : List (String × Json)) : Bool :=
  (match entries.filter (fun p => p.1 == "success") with
   | [(_, .bool _)] => true
   | _ => false)
  && fieldOk isStrOrNull entries "error"
  && fieldOk isStrOrNull entries "message"
  && fieldOk isStrOrNull entries "response"
  && fieldOk isStrOrNull entries "timestamp"
  && fieldOk isStrOrNull entries "url"
  && fieldOk isStrOrNull entries "title"
  && fieldOk isStrOrNull entries "content"
  && fieldOk isStrOrNull entries "type"
  && fieldOk (fun _ => true) entries "data"
  && fieldOk isI32OrNull entries "count"
  && fieldOk isStrOrNull entries "analysis"
  && fieldOk isStrArrOrNull entries "keywords"
  && fieldOk isStrOrNull entries "summary"
  && fieldOk isStrOrNull entries "id"
  && fieldOk isStrOrNull entries "session_id"
  && fieldOk isStrOrNull entries "role"
  && fieldOk isArrOrNull entries "messages"
  && fieldOk isStrOrNull entries "model"
  && fieldOk (fun _ => true) entries "context_summary"
  && fieldOk isArrOrNull entries "history"

/-- Directory `q` carries neither workspace marker: no `backend` and no
`frontend` child exists. -/
def noMarker (fs : FS) (q : FsPath) : Bool :=
  !(fs.hasEntry (q ++ ["backend"]) || fs.hasEntry (q ++ ["frontend"]))

/-- Whether a JSON value is an object. -/
def Json.isObjV : Json → Bool
  | .obj _ => true
  | _ => false

/-- No directory strictly between `r` (exclusive) and `r ++ s`
(inclusive) carries a workspace marker: `noMarker` holds at `r ++ p`
for every nonempty prefix `p` of `s`. -/
def noMarkerOnPath (fs : FS) (r : FsPath) : List String → Bool
  | [] => true
  | x :: xs => noMarker fs (r ++ [x]) && noMarkerOnPath fs (r ++ [x]) xs

/-! ### Tokenizer-level facts -/

theorem mk_data_eq (s : String) : String.mk s.data = s := rfl

theorem skipWs_not_ws {c : Char} (h : isWsChar c = false) (l : List Char) :
    skipWs (c :: l) = c :: l := by
  simp [skipWs, h]

theorem digitChar_isDigit : ∀ d < 10, (digitChar d).isDigit = true := by decide

theorem digitChar_toNat : ∀ d < 10, (digitChar d).toNat = 48 + d := by decide

theorem hexVal_hexDigitChar : ∀ d < 16, hexVal (hexDigitChar d) = some d := by decide

theorem natDigits_of_lt {n : Nat} (h : n < 10) : natDigits n = [digitChar n] := by
  rw [natDigits]; simp [h]

theorem natDigits_of_ge {n : Nat} (h : ¬ n < 10) :
    natDigits n = natDigits (n / 10) ++ [digitChar (n % 10)] := by
  rw [natDigits]; simp [h]

theorem natDigits_cons (n : Nat) :
    ∃ k, k < 10 ∧ ∃ ds, natDigits n = digitChar k :: ds := by
  induction n using Nat.strong_induction_on with
  | _ n ih =>
    by_cases h : n < 10
    · exact ⟨n, h, [], natDigits_of_lt h⟩
    · obtain ⟨k, hk, ds, hd⟩ := ih (n / 10) (Nat.div_lt_self (by omega) (by omega))
      exact ⟨k, hk, ds ++ [digitChar (n % 10)], by rw [natDigits_of_ge h, hd]; simp⟩

theorem parseDigitsAux_cons_digit {c : Char} (h : c.isDigit = true) (acc : Nat)
    (rest : List Char) :
    parseDigitsAux acc (c :: rest) = parseDigitsAux (acc * 10 + (c.toNat - 48)) rest := by
  simp [parseDigitsAux, h]

theorem parseDigitsAux_stop {rest : List Char} (h : noDigitHead rest) (acc : Nat) :
    parseDigitsAux acc rest = (acc, rest) := by
  cases rest with
  | nil => simp [parseDigitsAux]
  | cons c cs =>
    simp [noDigitHead] at h
    simp [parseDigitsAux, h]

theorem parseDigitsAux_natDigits (n : Nat) : ∀ acc rest,
    parseDigitsAux acc (natDigits n ++ rest)
      = parseDigitsAux (acc * 10 ^ (natDigits n).length + n) rest := by
  induction n using Nat.strong_induction_on with
  | _ n ih =>
    intro acc rest
    by_cases h : n < 10
    · rw [natDigits_of_lt h]
      simp only [List.cons_append, List.nil_append, List.length_cons, List.length_nil]
      rw [parseDigitsAux_cons_digit (digitChar_isDigit n h), digitChar_toNat n h]
      congr 1
      simp
    · rw [natDigits_of_ge h, List.append_assoc, List.singleton_append]
      rw [ih (n / 10) (Nat.div_lt_self (by omega) (by omega))]
      rw [parseDigitsAux_cons_digit (digitChar_isDigit _ (Nat.mod_lt _ (by omega))),
        digitChar_toNat _ (Nat.mod_lt _ (by omega))]
      congr 1
      simp only [List.length_append, List.length_cons, List.length_nil, Nat.zero_add]
      have harith : 48 + n % 10 - 48 = n % 10 := by omega
      rw [harith]
      calc (acc * 10 ^ (natDigits (n / 10)).length + n / 10) * 10 + n % 10
          = acc * (10 ^ (natDigits (n / 10)).length * 10) + (10 * (n / 10) + n % 10) := by ring
        _ = acc * 10 ^ ((natDigits (n / 10)).length + 1) + n := by
            rw [Nat.div_add_mod, pow_succ]

theorem parseDigitsAux_full {n : Nat} {rest : List Char} (h : noDigitHead rest) :
    parseDigitsAux 0 (natDigits n ++ rest) = (n, rest) := by
  rw [parseDigitsAux_natDigits]
  simpa using parseDigitsAux_stop h n

theorem parseNumber_printInt (i : Int) {rest : List Char} (h : noDigitHead rest) :
    parseNumber (printInt i ++ rest) = some (.num i, rest) := by
  obtain ⟨k, hk, ds, hd⟩ := natDigits_cons i.natAbs
  have hdig : (digitChar k).isDigit = true := digitChar_isDigit k hk
  have hfull : parseDigitsAux ((digitChar k).toNat - 48) (ds ++ rest) = (i.natAbs, rest) := by
    have h0 := @parseDigitsAux_full i.natAbs rest h
    rw [hd, List.cons_append, parseDigitsAux_cons_digit hdig] at h0
    simpa using h0
  by_cases hneg : i < 0
  · have hpr : printInt i = '-' :: natDigits i.natAbs := by simp [printInt, hneg]
    rw [hpr, hd]
    simp only [List.cons_append]
    simp [parseNumber, hdig, hfull]
    rw [abs_of_neg hneg]
    ring
  · have hpr : printInt i = natDigits i.natAbs := by simp [printInt, hneg]
    have hnotdash : digitChar k ≠ '-' := by
      have hall : ∀ m < 10, digitChar m ≠ '-' := by decide
      exact hall k hk
    rw [hpr, hd]
    simp only [List.cons_append]
    simp [parseNumber, hnotdash, hdig, hfull]
    omega

theorem parseStringBody_escList (l : List Char) (rest : List Char) :
    parseStringBody (escList l ++ '"' :: rest) = some (l, rest) := by
  induction l with
  | nil =>
    rw [escList, List.map_nil, List.flatten_nil, List.nil_append, parseStringBody.eq_def]
    simp
  | cons c l ih =>
    have hstep : escList (c :: l) = escChar c ++ escList l := by simp [escList]
    rw [hstep, List.append_assoc]
    by_cases h1 : c = '"'
    · subst h1
      rw [show escChar '"' = ['\\', '"'] from rfl]
      simp only [List.cons_append, List.nil_append]
      rw [parseStringBody.eq_def]
      simp [unescChar, ih]
    · by_cases h2 : c = '\\'
      · subst h2
        rw [show escChar '\\' = ['\\', '\\'] from rfl]
        simp only [List.cons_append, List.nil_append]
        rw [parseStringBody.eq_def]
        simp [unescChar, ih]
      · by_cases h3 : c = '\n'
        · subst h3
          rw [show escChar '\n' = ['\\', 'n'] from rfl]
          simp only [List.cons_append, List.nil_append]
          rw [parseStringBody.eq_def]
          simp [unescChar, ih]
        · by_cases h4 : c = '\t'
          · subst h4
            rw [show escChar '\t' = ['\\', 't'] from rfl]
            simp only [List.cons_append, List.nil_append]
            rw [parseStringBody.eq_def]
            simp [unescChar, ih]
          · by_cases h5 : c = '\r'
            · subst h5
              rw [show escChar '\r' = ['\\', 'r'] from rfl]
              simp only [List.cons_append, List.nil_append]
              rw [parseStringBody.eq_def]
              simp [unescChar, ih]
            · by_cases h6 : c.toNat < 32
              · have hesc : escChar c = ['\\', 'u', '0', '0',
                    hexDigitChar (c.toNat / 16), hexDigitChar (c.toNat % 16)] := by
                  simp [escChar, h1, h2, h3, h4, h5, h6]
                rw [hesc]
                simp only [List.cons_append, List.nil_append]
                have hv1 : hexVal '0' = some 0 := by decide
                have hv2 : hexVal (hexDigitChar (c.toNat / 16)) = some (c.toNat / 16) :=
                  hexVal_hexDigitChar _ (by omega)
                have hv3 : hexVal (hexDigitChar (c.toNat % 16)) = some (c.toNat % 16) :=
                  hexVal_hexDigitChar _ (by omega)
                rw [parseStringBody.eq_def]
                simp [hv1, hv2, hv3, ih]
                conv_rhs => rw [← Char.ofNat_toNat c]
                congr 1
                omega
              · have hesc : escChar c = [c] := by simp [escChar, h1, h2, h3, h4, h5, h6]
                rw [hesc]
                simp only [List.cons_append, List.nil_append]
                rw [parseStringBody.eq_def]
                simp [h1, h2, h6, ih]

/-! ### One-step `parseValue` reductions -/

theorem parseValue_null (fuel : Nat) (rest : List Char) :
    parseValue (fuel + 1) ('n' :: 'u' :: 'l' :: 'l' :: rest) = some (.null, rest) := by
  rw [parseValue.eq_def]; simp [skipWs, isWsChar]

theorem parseValue_true (fuel : Nat) (rest : List Char) :
    parseValue (fuel + 1) ('t' :: 'r' :: 'u' :: 'e' :: rest) = some (.bool true, rest) := by
  rw [parseValue.eq_def]; simp [skipWs, isWsChar]

theorem parseValue_false (fuel : Nat) (rest : List Char) :
    parseValue (fuel + 1) ('f' :: 'a' :: 'l' :: 's' :: 'e' :: rest) = some (.bool false, rest) := by
  rw [parseValue.eq_def]; simp [skipWs, isWsChar]

theorem parseValue_quote {cs l r : List Char} (fuel : Nat)
    (h : parseStringBody cs = some (l, r)) :
    parseValue (fuel + 1) ('"' :: cs) = some (.str (String.mk l), r) := by
  rw [parseValue.eq_def]; simp [skipWs, isWsChar, h]

theorem parseValue_number {c : Char} {cs : List Char} (fuel : Nat)
    (hws : isWsChar c = false) (hn : c ≠ 'n') (ht : c ≠ 't') (hf : c ≠ 'f')
    (hq : c ≠ '"') (hb : c ≠ '[') (hbr : c ≠ '{') :
    parseValue (fuel + 1) (c :: cs) = parseNumber (c :: cs) := by
  rw [parseValue.eq_def]
  simp [skipWs_not_ws hws, hn, ht, hf, hq, hb, hbr]

theorem parseValue_arrNil (fuel : Nat) (rest : List Char) :
    parseValue (fuel + 1) ('[' :: ']' :: rest) = some (.arr [], rest) := by
  rw [parseValue.eq_def]; simp [skipWs, isWsChar]

theorem parseValue_arrCons {c : Char} {cs : List Char} {l : List Json} {r : List Char}
    (fuel : Nat) (hws : isWsChar c = false) (hne : c ≠ ']')
    (h : parseItems fuel (c :: cs) = some (l, r)) :
    parseValue (fuel + 1) ('[' :: c :: cs) = some (.arr l, r) := by
  rw [parseValue.eq_def]
  simp [skipWs_not_ws (show isWsChar '[' = false by decide), skipWs_not_ws hws, hne, h]

theorem parseValue_objNil (fuel : Nat) (rest : List Char) :
    parseValue (fuel + 1) ('{' :: '}' :: rest) = some (.obj [], rest) := by
  rw [parseValue.eq_def]; simp [skipWs, isWsChar]

theorem parseValue_objCons {c : Char} {cs : List Char} {ms : List (String × Json)}
    {r : List Char} (fuel : Nat) (hws : isWsChar c = false) (hne : c ≠ '}')
    (h : parseMembers fuel (c :: cs) = some (ms, r)) :
    parseValue (fuel + 1) ('{' :: c :: cs) = some (.obj ms, r) := by
  rw [parseValue.eq_def]
  simp [skipWs_not_ws (show isWsChar '{' = false by decide), skipWs_not_ws hws, hne, h]

/-! ### Head-shape facts about printed values -/

theorem printInt_head (i : Int) :
    ∃ c cs, printInt i = c :: cs ∧ isWsChar c = false ∧ c ≠ 'n' ∧ c ≠ 't' ∧ c ≠ 'f' ∧
      c ≠ '"' ∧ c ≠ '[' ∧ c ≠ '{' := by
  obtain ⟨k, hk, ds, hd⟩ := natDigits_cons i.natAbs
  by_cases hneg : i < 0
  · exact ⟨'-', natDigits i.natAbs, by simp [printInt, hneg], by decide, by decide, by decide,
      by decide, by decide, by decide, by decide⟩
  · refine ⟨digitChar k, ds, by simp [printInt, hneg, hd], ?_, ?_, ?_, ?_, ?_, ?_, ?_⟩
    · exact (show ∀ m < 10, isWsChar (digitChar m) = false by decide) k hk
    · exact (show ∀ m < 10, digitChar m ≠ 'n' by decide) k hk
    · exact (show ∀ m < 10, digitChar m ≠ 't' by decide) k hk
    · exact (show ∀ m < 10, digitChar m ≠ 'f' by decide) k hk
    · exact (show ∀ m < 10, digitChar m ≠ '"' by decide) k hk
    · exact (show ∀ m < 10, digitChar m ≠ '[' by decide) k hk
    · exact (show ∀ m < 10, digitChar m ≠ '{' by decide) k hk

theorem printV_head (v : Json) :
    ∃ c cs, Json.printV v = c :: cs ∧ isWsChar c = false ∧ c ≠ ']' ∧ c ≠ '}' := by
  cases v with
  | null => exact ⟨'n', ['u', 'l', 'l'], by simp [Json.printV], by decide, by decide, by decide⟩
  | bool b =>
    cases b with
    | true => exact ⟨'t', ['r', 'u', 'e'], by simp [Json.printV], by decide, by decide, by decide⟩
    | false =>
      exact ⟨'f', ['a', 'l', 's', 'e'], by simp [Json.printV], by decide, by decide, by decide⟩
  | num i =>
    obtain ⟨k, hk, ds, hd⟩ := natDigits_cons i.natAbs
    by_cases hneg : i < 0
    · exact ⟨'-', natDigits i.natAbs, by simp [Json.printV, printInt, hneg], by decide,
        by decide, by decide⟩
    · refine ⟨digitChar k, ds, by simp [Json.printV, printInt, hneg, hd], ?_, ?_, ?_⟩
      · exact (show ∀ m < 10, isWsChar (digitChar m) = false by decide) k hk
      · exact (show ∀ m < 10, digitChar m ≠ ']' by decide) k hk
      · exact (show ∀ m < 10, digitChar m ≠ '}' by decide) k hk
  | str s =>
    exact ⟨'"', escList s.data ++ ['"'], by simp [Json.printV, printStr], by decide,
      by decide, by decide⟩
  | arr l =>
    cases l with
    | nil => exact ⟨'[', [']'], by simp [Json.printV], by decide, by decide, by decide⟩
    | cons v vs =>
      exact ⟨'[', Json.printV v ++ (Json.printItemsTail vs ++ [']']), by simp [Json.printV],
        by decide, by decide, by decide⟩
  | obj ms =>
    cases ms with
    | nil => exact ⟨'{', ['}'], by simp [Json.printV], by decide, by decide, by decide⟩
    | cons m ms' =>
      exact ⟨'{', Json.printMember m ++ (Json.printMembersTail ms' ++ ['}']),
        by simp [Json.printV], by decide, by decide, by decide⟩

theorem noDigitHead_itemsTail (vs : List Json) (rest : List Char) :
    noDigitHead (Json.printItemsTail vs ++ ']' :: rest) := by
  cases vs <;> simp [Json.printItemsTail, noDigitHead]

theorem noDigitHead_membersTail (ms : List (String × Json)) (rest : List Char) :
    noDigitHead (Json.printMembersTail ms ++ '}' :: rest) := by
  cases ms <;> simp [Json.printMembersTail, noDigitHead]

/-! ### The print/parse roundtrip -/

theorem parse_print_main : ∀ fuel : Nat,
    (∀ v rest, Json.fuelV v ≤ fuel → noDigitHead rest →
      parseValue fuel (Json.printV v ++ rest) = some (v, rest))
    ∧ (∀ v vs rest, Json.fuelItems (v :: vs) ≤ fuel →
      parseItems fuel (Json.printV v ++ (Json.printItemsTail vs ++ ']' :: rest))
        = some (v :: vs, rest))
    ∧ (∀ k jv ms rest, Json.fuelMembers ((k, jv) :: ms) ≤ fuel →
      parseMembers fuel
          (Json.printMember (k, jv) ++ (Json.printMembersTail ms ++ '}' :: rest))
        = some ((k, jv) :: ms, rest)) := by
  intro fuel
  induction fuel with
  | zero =>
    refine ⟨?_, ?_, ?_⟩
    · intro v rest hf _
      exfalso
      cases v <;> simp [Json.fuelV] at hf
    · intro v vs rest hf
      exfalso
      simp [Json.fuelItems] at hf
    · intro k jv ms rest hf
      exfalso
      simp [Json.fuelMembers] at hf
  | succ fuel ih =>
    obtain ⟨ihV, ihI, ihM⟩ := ih
    refine ⟨?_, ?_, ?_⟩
    · intro v rest hf hrest
      cases v with
      | null =>
        simpa [Json.printV] using parseValue_null fuel rest
      | bool b =>
        cases b with
        | true => simpa [Json.printV] using parseValue_true fuel rest
        | false => simpa [Json.printV] using parseValue_false fuel rest
      | num i =>
        obtain ⟨c, cs, hpr, hws, hn, ht, hf2, hq, hb, hbr⟩ := printInt_head i
        have hgoal : Json.printV (.num i) ++ rest = c :: (cs ++ rest) := by
          simp [Json.printV, hpr]
        rw [hgoal, parseValue_number fuel hws hn ht hf2 hq hb hbr, ← List.cons_append, ← hpr]
        exact parseNumber_printInt i hrest
      | str s =>
        have hgoal : Json.printV (.str s) ++ rest = '"' :: (escList s.data ++ '"' :: rest) := by
          simp [Json.printV, printStr]
        rw [hgoal]
        exact parseValue_quote fuel (parseStringBody_escList s.data rest)
      | arr l =>
        cases l with
        | nil =>
          have hgoal : Json.printV (.arr []) ++ rest = '[' :: ']' :: rest := by
            simp [Json.printV]
          rw [hgoal]
          exact parseValue_arrNil fuel rest
        | cons v vs =>
          obtain ⟨c, cs, hpr, hws, hne, _⟩ := printV_head v
          have hI : Json.fuelItems (v :: vs) ≤ fuel := by
            simp [Json.fuelV] at hf; omega
          have hitems := ihI v vs rest hI
          rw [hpr, List.cons_append] at hitems
          have hgoal : Json.printV (.arr (v :: vs)) ++ rest
              = '[' :: c :: (cs ++ (Json.printItemsTail vs ++ ']' :: rest)) := by
            simp [Json.printV, hpr]
          rw [hgoal]
          exact parseValue_arrCons fuel hws hne hitems
      | obj ms =>
        cases ms with
        | nil =>
          have hgoal : Json.printV (.obj []) ++ rest = '{' :: '}' :: rest := by
            simp [Json.printV]
          rw [hgoal]
          exact parseValue_objNil fuel rest
        | cons m ms' =>
          obtain ⟨k, jv⟩ := m
          have hM : Json.fuelMembers ((k, jv) :: ms') ≤ fuel := by
            simp [Json.fuelV] at hf; omega
          have hmem := ihM k jv ms' rest hM
          have hpm : Json.printMember (k, jv)
              = '"' :: (escList k.data ++ '"' :: ':' :: Json.printV jv) := by
            simp [Json.printMember, printStr]
          rw [hpm, List.cons_append] at hmem
          have hgoal : Json.printV (.obj ((k, jv) :: ms')) ++ rest
              = '{' :: '"' :: ((escList k.data ++ '"' :: ':' :: Json.printV jv)
                  ++ (Json.printMembersTail ms' ++ '}' :: rest)) := by
            simp [Json.printV, Json.printMember, printStr]
          rw [hgoal]
          exact parseValue_objCons fuel (by decide) (by decide) hmem
    · intro v vs rest hf
      have hV : Json.fuelV v ≤ fuel := by simp [Json.fuelItems] at hf; omega
      have hval := ihV v (Json.printItemsTail vs ++ ']' :: rest) hV
        (noDigitHead_itemsTail vs rest)
      rw [parseItems.eq_def]
      cases vs with
      | nil =>
        simp only [Json.printItemsTail, List.nil_append] at hval ⊢
        simp [hval, skipWs, isWsChar]
      | cons v' vs' =>
        have hI' : Json.fuelItems (v' :: vs') ≤ fuel := by
          simp [Json.fuelItems] at hf ⊢; omega
        have hrec := ihI v' vs' rest hI'
        have htail : Json.printItemsTail (v' :: vs') ++ ']' :: rest
            = ',' :: (Json.printV v' ++ (Json.printItemsTail vs' ++ ']' :: rest)) := by
          simp [Json.printItemsTail]
        rw [htail] at hval ⊢
        simp [hval, skipWs, isWsChar, hrec]
    · intro k jv ms rest hf
      have hV : Json.fuelV jv ≤ fuel := by simp [Json.fuelMembers] at hf; omega
      have hval := ihV jv (Json.printMembersTail ms ++ '}' :: rest) hV
        (noDigitHead_membersTail ms rest)
      have hinput : Json.printMember (k, jv) ++ (Json.printMembersTail ms ++ '}' :: rest)
          = '"' :: (escList k.data ++ '"' :: (':'
              :: (Json.printV jv ++ (Json.printMembersTail ms ++ '}' :: rest)))) := by
        simp [Json.printMember, printStr]
      rw [hinput, parseMembers.eq_def]
      cases ms with
      | nil =>
        simp only [Json.printMembersTail, List.nil_append] at hval ⊢
        simp [parseStringBody_escList, hval, skipWs, isWsChar, mk_data_eq]
      | cons m' ms' =>
        obtain ⟨k', jv'⟩ := m'
        have hM' : Json.fuelMembers ((k', jv') :: ms') ≤ fuel := by
          simp [Json.fuelMembers] at hf ⊢; omega
        have hrec := ihM k' jv' ms' rest hM'
        have htail : Json.printMembersTail ((k', jv') :: ms') ++ '}' :: rest
            = ',' :: (Json.printMember (k', jv')
                ++ (Json.printMembersTail ms' ++ '}' :: rest)) := by
          simp [Json.printMembersTail]
        rw [htail] at hval ⊢
        simp [parseStringBody_escList, hval, skipWs, isWsChar, hrec, mk_data_eq]

mutual

theorem fuelV_le_printV : ∀ v : Json, Json.fuelV v ≤ (Json.printV v).length
  | .null => by simp [Json.fuelV, Json.printV]
  | .bool true => by simp [Json.fuelV, Json.printV]
  | .bool false => by simp [Json.fuelV, Json.printV]
  | .num i => by
    obtain ⟨c, cs, hpr, _⟩ := printInt_head i
    simp [Json.fuelV, Json.printV, hpr]
  | .str s => by simp [Json.fuelV, Json.printV, printStr]
  | .arr [] => by simp [Json.fuelV, Json.fuelItems, Json.printV]
  | .arr (v :: vs) => by
    have h1 := fuelV_le_printV v
    have h2 := fuelItems_le_printItemsTail vs
    simp [Json.fuelV, Json.fuelItems, Json.printV]
    omega
  | .obj [] => by simp [Json.fuelV, Json.fuelMembers, Json.printV]
  | .obj ((k, jv) :: ms) => by
    have h1 := fuelV_le_printV jv
    have h2 := fuelMembers_le_printMembersTail ms
    simp [Json.fuelV, Json.fuelMembers, Json.printV, Json.printMember]
    omega

theorem fuelItems_le_printItemsTail : ∀ l : List Json,
    Json.fuelItems l ≤ (Json.printItemsTail l).length
  | [] => by simp [Json.fuelItems, Json.printItemsTail]
  | v :: vs => by
    have h1 := fuelV_le_printV v
    have h2 := fuelItems_le_printItemsTail vs
    simp [Json.fuelItems, Json.printItemsTail]
    omega

theorem fuelMembers_le_printMembersTail : ∀ ms : List (String × Json),
    Json.fuelMembers ms ≤ (Json.printMembersTail ms).length
  | [] => by simp [Json.fuelMembers, Json.printMembersTail]
  | (k, jv) :: ms => by
    have h1 := fuelV_le_printV jv
    have h2 := fuelMembers_le_printMembersTail ms
    simp [Json.fuelMembers, Json.printMembersTail, Json.printMember]
    omega

end

theorem parseJson_printV (v : Json) : parseJson (String.mk (Json.printV v)) = some v := by
  unfold parseJson
  have hdata : (String.mk (Json.printV v)).data = Json.printV v := rfl
  rw [hdata]
  have hfuel : Json.fuelV v ≤ (Json.printV v).length + 1 :=
    le_trans (fuelV_le_printV v) (by omega)
  have h := (parse_print_main ((Json.printV v).length + 1)).1 v [] hfuel (by simp [noDigitHead])
  rw [List.append_nil] at h
  rw [h]
  simp [skipWs]

/-! ### Decoder facts -/

theorem getField_of_fieldOk {chk : Json → Bool} {entries : List (String × Json)} {name : String}
    (h : fieldOk chk entries name = true) :
    getField entries name = .ok none
      ∨ ∃ v, getField entries name = .ok (some v) ∧ chk v = true := by
  unfold fieldOk at h
  unfold getField
  cases hfil : entries.filter (fun p => p.1 == name) with
  | nil => left; rfl
  | cons p ps =>
    cases ps with
    | nil =>
      right
      refine ⟨p.2, rfl, ?_⟩
      rw [hfil] at h
      exact h
    | cons q qs =>
      rw [hfil] at h
      simp at h

theorem asOptString_ok {v : Json} (h : isStrOrNull v = true) :
    ∃ o, asOptString (some v) = .ok o := by
  cases v <;> simp [isStrOrNull] at h <;> exact ⟨_, rfl⟩

theorem asOptI32_ok {v : Json} (h : isI32OrNull v = true) :
    ∃ o, asOptI32 (some v) = .ok o := by
  cases v <;> simp [isI32OrNull] at h
  · exact ⟨none, rfl⟩
  · rename_i n
    exact ⟨some n, by simp [asOptI32, h]⟩

theorem asStringList_ok {l : List Json}
    (h : l.all (fun v => match v with | .str _ => true | _ => false) = true) :
    ∃ out, asStringList l = .ok out := by
  induction l with
  | nil => exact ⟨[], rfl⟩
  | cons v vs ih =>
    simp [List.all_cons] at h
    obtain ⟨hv, hvs⟩ := h
    obtain ⟨out, hout⟩ := ih (by simpa using hvs)
    cases v <;> simp at hv
    rename_i sv
    exact ⟨sv :: out, by simp [asStringList, hout, Except.map]⟩

theorem asOptStringList_ok {v : Json} (h : isStrArrOrNull v = true) :
    ∃ o, asOptStringList (some v) = .ok o := by
  cases v <;> simp [isStrArrOrNull] at h
  · exact ⟨none, rfl⟩
  · rename_i l
    obtain ⟨out, hout⟩ := asStringList_ok (by simpa using h)
    exact ⟨some out, by simp [asOptStringList, hout, Except.map]⟩

theorem asOptJsonList_ok {v : Json} (h : isArrOrNull v = true) :
    ∃ o, asOptJsonList (some v) = .ok o := by
  cases v <;> simp [isArrOrNull] at h
  · exact ⟨none, rfl⟩
  · exact ⟨_, rfl⟩

theorem asOptAny_ok (ov : Option Json) : ∃ o, asOptAny ov = .ok o := by
  cases ov with
  | none => exact ⟨none, rfl⟩
  | some v => cases v <;> exact ⟨_, rfl⟩

theorem successField_of_shape {entries : List (String × Json)}
    (h : (match entries.filter (fun p => p.1 == "success") with
      | [(_, .bool _)] => true
      | _ => false) = true) :
    ∃ b, getField entries "success" = .ok (some (.bool b)) := by
  unfold getField
  cases hfil : entries.filter (fun p => p.1 == "success") with
  | nil => rw [hfil] at h; simp at h
  | cons p ps =>
    cases ps with
    | nil =>
      obtain ⟨k, v⟩ := p
      cases v <;> rw [hfil] at h <;> simp at h
      rename_i b
      exact ⟨b, rfl⟩
    | cons q qs => rw [hfil] at h; simp at h

theorem bindOk {ε α β : Type} (a : α) (f : α → Except ε β) :
    (Except.ok (ε := ε) a >>= f) = f a := rfl

theorem strField_ok {entries : List (String × Json)} {name : String}
    (h : fieldOk isStrOrNull entries name = true) :
    ∃ ov o, getField entries name = .ok ov ∧ asOptString ov = .ok o := by
  rcases getField_of_fieldOk h with hg | ⟨v, hg, hv⟩
  · exact ⟨none, none, hg, rfl⟩
  · obtain ⟨o, ho⟩ := asOptString_ok hv
    exact ⟨some v, o, hg, ho⟩

theorem i32Field_ok {entries : List (String × Json)} {name : String}
    (h : fieldOk isI32OrNull entries name = true) :
    ∃ ov o, getField entries name = .ok ov ∧ asOptI32 ov = .ok o := by
  rcases getField_of_fieldOk h with hg | ⟨v, hg, hv⟩
  · exact ⟨none, none, hg, rfl⟩
  · obtain ⟨o, ho⟩ := asOptI32_ok hv
    exact ⟨some v, o, hg, ho⟩

theorem strListField_ok {entries : List (String × Json)} {name : String}
    (h : fieldOk isStrArrOrNull entries name = true) :
    ∃ ov o, getField entries name = .ok ov ∧ asOptStringList ov = .ok o := by
  rcases getField_of_fieldOk h with hg | ⟨v, hg, hv⟩
  · exact ⟨none, none, hg, rfl⟩
  · obtain ⟨o, ho⟩ := asOptStringList_ok hv
    exact ⟨some v, o, hg, ho⟩

theorem jsonListField_ok {entries : List (String × Json)} {name : String}
    (h : fieldOk isArrOrNull entries name = true) :
    ∃ ov o, getField entries name = .ok ov ∧ asOptJsonList ov = .ok o := by
  rcases getField_of_fieldOk h with hg | ⟨v, hg, hv⟩
  · exact ⟨none, none, hg, rfl⟩
  · obtain ⟨o, ho⟩ := asOptJsonList_ok hv
    exact ⟨some v, o, hg, ho⟩

theorem anyField_ok {entries : List (String × Json)} {name : String}
    (h : fieldOk (fun _ => true) entries name = true) :
    ∃ ov o, getField entries name = .ok ov ∧ asOptAny ov = .ok o := by
  rcases getField_of_fieldOk h with hg | ⟨v, hg, _⟩
  · exact ⟨none, none, hg, rfl⟩
  · obtain ⟨o, ho⟩ := asOptAny_ok (some v)
    exact ⟨some v, o, hg, ho⟩

theorem decodeResponseObj_ok {entries : List (String × Json)}
    (h : responseShapeOk entries = true) :
    ∃ r, decodeResponseObj entries = .ok r := by
  unfold responseShapeOk at h
  simp only [Bool.and_eq_true] at h
  obtain ⟨h, hHistory⟩ := h
  obtain ⟨h, hCtx⟩ := h
  obtain ⟨h, hModel⟩ := h
  obtain ⟨h, hMessages⟩ := h
  obtain ⟨h, hRole⟩ := h
  obtain ⟨h, hSession⟩ := h
  obtain ⟨h, hId⟩ := h
  obtain ⟨h, hSummary⟩ := h
  obtain ⟨h, hKeywords⟩ := h
  obtain ⟨h, hAnalysis⟩ := h
  obtain ⟨h, hCount⟩ := h
  obtain ⟨h, hData⟩ := h
  obtain ⟨h, hType⟩ := h
  obtain ⟨h, hContent⟩ := h
  obtain ⟨h, hTitle⟩ := h
  obtain ⟨h, hUrl⟩ := h
  obtain ⟨h, hTimestamp⟩ := h
  obtain ⟨h, hResponse⟩ := h
  obtain ⟨h, hMessage⟩ := h
  obtain ⟨hSuccess, hError⟩ := h
  obtain ⟨b, hgs⟩ := successField_of_shape hSuccess
  obtain ⟨ov1, o1, hg1, hd1⟩ := strField_ok hError
  obtain ⟨ov2, o2, hg2, hd2⟩ := strField_ok hMessage
  obtain ⟨ov3, o3, hg3, hd3⟩ := strField_ok hResponse
  obtain ⟨ov4, o4, hg4, hd4⟩ := strField_ok hTimestamp
  obtain ⟨ov5, o5, hg5, hd5⟩ := strField_ok hUrl
  obtain ⟨ov6, o6, hg6, hd6⟩ := strField_ok hTitle
  obtain ⟨ov7, o7, hg7, hd7⟩ := strField_ok hContent
  obtain ⟨ov8, o8, hg8, hd8⟩ := strField_ok hType
  obtain ⟨ov9, o9, hg9, hd9⟩ := anyField_ok hData
  obtain ⟨ov10, o10, hg10, hd10⟩ := i32Field_ok hCount
  obtain ⟨ov11, o11, hg11, hd11⟩ := strField_ok hAnalysis
  obtain ⟨ov12, o12, hg12, hd12⟩ := strListField_ok hKeywords
  obtain ⟨ov13, o13, hg13, hd13⟩ := strField_ok hSummary
  obtain ⟨ov14, o14, hg14, hd14⟩ := strField_ok hId
  obtain ⟨ov15, o15, hg15, hd15⟩ := strField_ok hSession
  obtain ⟨ov16, o16, hg16, hd16⟩ := strField_ok hRole
  obtain ⟨ov17, o17, hg17, hd17⟩ := jsonListField_ok hMessages
  obtain ⟨ov18, o18, hg18, hd18⟩ := strField_ok hModel
  obtain ⟨ov19, o19, hg19, hd19⟩ := anyField_ok hCtx
  obtain ⟨ov20, o20, hg20, hd20⟩ := jsonListField_ok hHistory
  refine ⟨CommandResponse.mk b o1 o2 o3 o4 o5 o6 o7 o8 o9 o10 o11 o12 o13 o14 o15
    o16 o17 o18 o19 o20, ?_⟩
  unfold decodeResponseObj
  simp only [hgs, hg1, hd1, hg2, hd2, hg3, hd3, hg4, hd4, hg5, hd5, hg6, hd6, hg7, hd7,
    hg8, hd8, hg9, hd9, hg10, hd10, hg11, hd11, hg12, hd12, hg13, hd13, hg14, hd14,
    hg15, hd15, hg16, hd16, hg17, hd17, hg18, hd18, hg19, hd19, hg20, hd20, bindOk]

/-! ### Workspace locator facts -/

theorem noMarkerOnPath_append (fs : FS) (r : FsPath) (s : List String) (x : String) :
    noMarkerOnPath fs r (s ++ [x])
      = (noMarkerOnPath fs r s && noMarker fs ((r ++ s) ++ [x])) := by
  induction s generalizing r with
  | nil => simp [noMarkerOnPath]
  | cons y ys ih =>
    simp only [List.cons_append, noMarkerOnPath, List.append_eq]
    rw [ih (r ++ [y])]
    simp [Bool.and_assoc, List.append_assoc]

theorem noMarker_cond {fs : FS} {q : FsPath} (h : noMarker fs q = true) :
    (fs.hasEntry (q ++ ["backend"]) || fs.hasEntry (q ++ ["frontend"])) = false := by
  have h' := h
  simp only [noMarker, Bool.not_eq_true'] at h'
  exact h'

theorem findWorkspaceRoot_self (fs : FS) (r : FsPath)
    (hr : (fs.hasEntry (r ++ ["backend"]) || fs.hasEntry (r ++ ["frontend"])) = true) :
    findWorkspaceRoot fs r = .ok r := by
  rw [findWorkspaceRoot.eq_def]
  simp [hr]

theorem findWorkspaceRoot_step (fs : FS) (c : String) (cs : List String)
    (hcond : (fs.hasEntry ((c :: cs) ++ ["backend"])
      || fs.hasEntry ((c :: cs) ++ ["frontend"])) = false) :
    findWorkspaceRoot fs (c :: cs) = findWorkspaceRoot fs (c :: cs).dropLast := by
  rw [findWorkspaceRoot.eq_def]
  simp at hcond
  simp [hcond.1, hcond.2]

theorem findWorkspaceRoot_root_fail (fs : FS)
    (hcond : (fs.hasEntry ([] ++ ["backend"]) || fs.hasEntry ([] ++ ["frontend"])) = false) :
    findWorkspaceRoot fs [] = .error "Could not find workspace root directory" := by
  rw [findWorkspaceRoot.eq_def]
  simp at hcond
  simp [hcond.1, hcond.2]

theorem findWorkspaceRoot_ascend (fs : FS) (r : FsPath)
    (hr : (fs.hasEntry (r ++ ["backend"]) || fs.hasEntry (r ++ ["frontend"])) = true) :
    ∀ s : List String, noMarkerOnPath fs r s = true →
      findWorkspaceRoot fs (r ++ s) = .ok r := by
  intro s
  induction s using List.reverseRecOn with
  | nil =>
    intro _
    rw [List.append_nil]
    exact findWorkspaceRoot_self fs r hr
  | append_singleton s' x ih =>
    intro hpath
    rw [noMarkerOnPath_append, Bool.and_eq_true] at hpath
    obtain ⟨hpath', hm⟩ := hpath
    have hne : (r ++ s') ++ [x] ≠ [] := by simp
    obtain ⟨c, cs, hcc⟩ := List.exists_cons_of_ne_nil hne
    rw [show r ++ (s' ++ [x]) = (r ++ s') ++ [x] by simp [List.append_assoc]]
    rw [hcc, findWorkspaceRoot_step fs c cs (by rw [← hcc]; exact noMarker_cond hm)]
    rw [← hcc, List.dropLast_concat]
    exact ih hpath'

theorem findWorkspaceRoot_fail (fs : FS) :
    ∀ cwd : List String, noMarker fs [] = true → noMarkerOnPath fs [] cwd = true →
      findWorkspaceRoot fs cwd = .error "Could not find workspace root directory" := by
  intro cwd
  induction cwd using List.reverseRecOn with
  | nil =>
    intro hroot _
    exact findWorkspaceRoot_root_fail fs (noMarker_cond hroot)
  | append_singleton s' x ih =>
    intro hroot hpath
    rw [noMarkerOnPath_append, Bool.and_eq_true] at hpath
    obtain ⟨hpath', hm⟩ := hpath
    have hne : s' ++ [x] ≠ [] := by simp
    obtain ⟨c, cs, hcc⟩ := List.exists_cons_of_ne_nil hne
    have hm' : noMarker fs (s' ++ [x]) = true := by simpa using hm
    rw [hcc, findWorkspaceRoot_step fs c cs (by rw [← hcc]; exact noMarker_cond hm')]
    rw [← hcc, List.dropLast_concat]
    exact ih hroot hpath'

/-! ### Bridge branch computations -/

theorem decodeResponse_error_of_bad {s : String}
    (h : parseJson s = none ∨ ∃ v, parseJson s = some v ∧ Json.isObjV v = false) :
    ∃ e, decodeResponse s = .error e := by
  unfold decodeResponse
  rcases h with h | ⟨v, hv, hobj⟩
  · rw [h]
    exact ⟨_, rfl⟩
  · rw [hv]
    cases v with
    | obj ms => simp [Json.isObjV] at hobj
    | null => exact ⟨_, rfl⟩
    | bool b => exact ⟨_, rfl⟩
    | num n => exact ⟨_, rfl⟩
    | str s2 => exact ⟨_, rfl⟩
    | arr l => exact ⟨_, rfl⟩

theorem removeFile_hasEntry_self (fs : FS) (p : FsPath) :
    (fs.removeFile p).hasEntry p = false := by
  simp [FS.removeFile, FS.hasEntry]

theorem call_spawnError {env : BridgeEnv} {bp : FsPath} (hbp : checkedBackendPath env = .ok bp)
    {msg : String} (hsp : env.spawn = .spawnError msg) (cmd : String)
    (payload : CommandPayload) :
    call_python_backend env cmd payload =
      ⟨.error ("Failed to execute Python command: " ++ msg),
        env.fs.write (bp ++ [tempFileName]), some (bp ++ [tempFileName])⟩ := by
  unfold call_python_backend
  rw [hbp, hsp]

theorem call_completed {env : BridgeEnv} {bp : FsPath} (hbp : checkedBackendPath env = .ok bp)
    {code : Nat} {out err : String} (hsp : env.spawn = .completed code out err)
    (cmd : String) (payload : CommandPayload) :
    call_python_backend env cmd payload =
      if code ≠ 0 then
        ⟨.error ("Python command failed: stderr: " ++ err ++ ", stdout: " ++ out),
          (env.fs.write (bp ++ [tempFileName])).removeFile (bp ++ [tempFileName]),
          some (bp ++ [tempFileName])⟩
      else
        match decodeResponse out with
        | .error e =>
          ⟨.error ("Failed to parse Python response: " ++ e ++ " (response was: "
              ++ out ++ ")"),
            (env.fs.write (bp ++ [tempFileName])).removeFile (bp ++ [tempFileName]),
            some (bp ++ [tempFileName])⟩
        | .ok resp =>
          ⟨.ok resp,
            (env.fs.write (bp ++ [tempFileName])).removeFile (bp ++ [tempFileName]),
            some (bp ++ [tempFileName])⟩ := by
  unfold call_python_backend
  rw [hbp, hsp]

theorem tempPathWritten_eq (env : BridgeEnv) (cmd : String) (payload : CommandPayload) :
    (call_python_backend env cmd payload).tempPathWritten
      = match checkedBackendPath env with
        | .ok bp => some (bp ++ [tempFileName])
        | .error _ => none := by
  unfold call_python_backend
  cases checkedBackendPath env with
  | error e => rfl
  | ok bp =>
    cases env.spawn with
    | spawnError msg => rfl
    | completed code out err =>
      by_cases hc : code ≠ 0
      · simp [hc]
      · simp [hc]
        cases decodeResponse out <;> rfl

/-! ### Claim theorems -/

/-- C1 (counterexample): on a spawn failure the `?` on lib.rs line 151
returns before the cleanup on line 154: with a worker directory present
and `Command::output` failing, the temp request file is written and is
still present in the worker directory after the invocation completes,
refuting absence on every path. -/
theorem C1_counterexample :
    (call_python_backend
        (BridgeEnv.mk false false [] [] (FS.mk [["backend"]]) (.spawnError "boom"))
        "hello" (CommandPayload.mk [])).tempPathWritten
      = some ["backend", "temp_payload.json"]
    ∧ (call_python_backend
        (BridgeEnv.mk false false [] [] (FS.mk [["backend"]]) (.spawnError "boom"))
        "hello" (CommandPayload.mk [])).fsAfter.hasEntry ["backend", "temp_payload.json"]
      = true := by
  exact ⟨rfl, rfl⟩

/-- C1 (amended): once the temp request file has been written, it is
absent from the worker directory after the invocation completes on
every path on which `Command::output` returned — process success,
non-zero exit and malformed response alike; on a spawn failure the
error propagates before the cleanup runs and the file remains. -/
theorem C1_temp_file_cleanup (env : BridgeEnv) (cmd : String) (payload : CommandPayload)
    (bp : FsPath) (code : Nat) (out err : String)
    (hbp : checkedBackendPath env = .ok bp)
    (hsp : env.spawn = .completed code out err) :
    (call_python_backend env cmd payload).tempPathWritten = some (bp ++ [tempFileName])
    ∧ (call_python_backend env cmd payload).fsAfter.hasEntry (bp ++ [tempFileName])
      = false := by
  rw [call_completed hbp hsp]
  by_cases hc : code ≠ 0
  · simp [hc, removeFile_hasEntry_self]
  · simp only [hc, if_false]
    cases decodeResponse out <;> simp [removeFile_hasEntry_self]

/-- C1 (witness): a concrete completed invocation at which the amended
theorem's hypotheses hold. -/
theorem C1_temp_file_cleanup_witness :
    (call_python_backend
        (BridgeEnv.mk false false [] [] (FS.mk [["backend"]]) (.completed 1 "" "x"))
        "hello" (CommandPayload.mk [])).tempPathWritten
      = some (["backend"] ++ [tempFileName])
    ∧ (call_python_backend
        (BridgeEnv.mk false false [] [] (FS.mk [["backend"]]) (.completed 1 "" "x"))
        "hello" (CommandPayload.mk [])).fsAfter.hasEntry (["backend"] ++ [tempFileName])
      = false :=
  C1_temp_file_cleanup _ "hello" (CommandPayload.mk []) ["backend"] 1 "" "x" rfl rfl

/-- C2 (counterexample): in production mode (`debug_assertions` off)
the code joins `backend` onto the current working directory (lib.rs
line 99), not onto the directory containing the executable: with cwd
`/home/user` and executable directory `/opt/app`, the worker directory
is `/home/user/backend`, which differs from `/opt/app/backend`. -/
theorem C2_counterexample :
    resolveBackendPath
        (BridgeEnv.mk false false ["home", "user"] ["opt", "app"]
          (FS.mk [["home", "user", "backend"]]) (.spawnError ""))
      = .ok ["home", "user", "backend"]
    ∧ (["home", "user", "backend"] : FsPath)
      ≠ (BridgeEnv.mk false false ["home", "user"] ["opt", "app"]
          (FS.mk [["home", "user", "backend"]]) (.spawnError "")).exeDir ++ ["backend"] := by
  exact ⟨rfl, by decide⟩

/-- C2 (amended): in non-development mode the worker directory is the
current working directory joined with `backend`; no ascent is performed
and the executable's own directory is never consulted (the result is
the same for every executable directory). -/
theorem C2_production_backend_path (env : BridgeEnv)
    (henv : env.debugAssertions = false) :
    resolveBackendPath env = .ok (env.cwd ++ ["backend"])
    ∧ ∀ d : FsPath,
        resolveBackendPath
          (BridgeEnv.mk env.debugAssertions env.windows env.cwd d env.fs env.spawn)
          = .ok (env.cwd ++ ["backend"]) := by
  constructor
  · simp [resolveBackendPath, henv]
  · intro d
    simp [resolveBackendPath, henv]

/-- C2 (witness): the amended theorem at a concrete production
environment. -/
theorem C2_production_backend_path_witness :
    resolveBackendPath
        (BridgeEnv.mk false false ["home", "user"] ["opt", "app"]
          (FS.mk [["home", "user", "backend"]]) (.spawnError ""))
      = .ok (["home", "user"] ++ ["backend"]) :=
  (C2_production_backend_path _ rfl).1

/-- C3 (counterexample): `{}` is a byte sequence that parses as a valid
JSON object, yet decoding fails, because the derived `Deserialize`
requires the `success` field: decode does fail on a missing expected
field. -/
theorem C3_counterexample :
    parseJson "\x7b\x7d" = some (Json.obj [])
    ∧ decodeResponse "\x7b\x7d" = .error "missing field success" := by
  exact ⟨rfl, rfl⟩

/-- C3 (amended): decoding succeeds on every byte sequence that parses
as a JSON object carrying a boolean `success` member exactly once and
in which each known optional field is absent or present once with a
value of its expected type; absence of any subset of the optional
fields never fails the decode, and unknown members are ignored. -/
theorem C3_decode_tolerates_absent_fields (s : String) (entries : List (String × Json))
    (hp : parseJson s = some (.obj entries))
    (hshape : responseShapeOk entries = true) :
    ∃ r, decodeResponse s = .ok r := by
  unfold decodeResponse
  rw [hp]
  exact decodeResponseObj_ok hshape

/-- C3 (witness): the amended theorem at the concrete response text
carrying only the `success` member. -/
theorem C3_decode_tolerates_absent_fields_witness :
    parseJson "\x7b\"success\": true\x7d" = some (.obj [("success", Json.bool true)])
    ∧ ∃ r, decodeResponse "\x7b\"success\": true\x7d" = .ok r :=
  ⟨rfl, C3_decode_tolerates_absent_fields _ [("success", Json.bool true)] rfl rfl⟩

/-- C5 (confirmed): for every request map, serializing it with the
payload encoder and parsing the bytes back as JSON succeeds and yields
a JSON object with exactly the same key/value pairs (byte-level detail
does not matter; the equivalence is membership of member pairs). -/
theorem C5_encode_parse_roundtrip (R : CommandPayload) :
    ∃ entries, parseJson (encodePayload R) = some (Json.obj entries)
      ∧ sameEntries entries R.data :=
  ⟨R.data, parseJson_printV (Json.obj R.data), fun _ => Iff.rfl⟩

/-- C4 (counterexample): with workspace root `/browser` (containing
`backend` and `frontend`) and the descendant `/browser/x` that itself
contains a directory named `frontend`, a development invocation started
at `/browser/x` does not succeed: the ascent stops at `/browser/x`
because the `frontend` marker matches there, and validation then fails
on the missing `/browser/x/backend`, refuting success at every
descendant of the root. -/
theorem C4_counterexample :
    (FS.mk [["browser"], ["browser", "backend"], ["browser", "frontend"],
        ["browser", "x"], ["browser", "x", "frontend"]]).hasEntry
      (["browser"] ++ ["backend"]) = true
    ∧ checkedBackendPath
        (BridgeEnv.mk true false ["browser", "x"] []
          (FS.mk [["browser"], ["browser", "backend"], ["browser", "frontend"],
            ["browser", "x"], ["browser", "x", "frontend"]])
          (.spawnError ""))
      = .error "Backend directory does not exist: \"/browser/x/backend\"" := by
  refine ⟨rfl, ?_⟩
  have h1 : findWorkspaceRoot
      (FS.mk [["browser"], ["browser", "backend"], ["browser", "frontend"],
        ["browser", "x"], ["browser", "x", "frontend"]]) ["browser", "x"]
      = .ok ["browser", "x"] :=
    findWorkspaceRoot_self _ _ (by decide)
  unfold checkedBackendPath resolveBackendPath devBackendPath
  simp only [h1]
  have h2 : isArtifactName (fileName ["browser", "x"]) = false := by decide
  have h3 : (FS.mk [["browser"], ["browser", "backend"], ["browser", "frontend"],
      ["browser", "x"], ["browser", "x", "frontend"]]).hasEntry
      ["browser", "x", "backend"] = false := by decide
  simp [h2, h3]
  rfl

/-- C4 (amended): in development-style invocation, (a) started at a
workspace root that contains the worker subdirectory and is not itself
named like a build artifact, location succeeds immediately; (b) started
at any descendant of such a root such that no directory strictly below
the root on the way up carries a `backend` or `frontend` marker,
location succeeds after ascending to the root; (c) started at a
directory none of whose ancestors (the root directory included) carries
either marker, it fails with the workspace-not-found error after
reaching the filesystem root. -/
theorem C4_workspace_location (env : BridgeEnv) (henv : env.debugAssertions = true) :
    (env.fs.hasEntry (env.cwd ++ ["backend"]) = true →
      isArtifactName (fileName env.cwd) = false →
      checkedBackendPath env = .ok (env.cwd ++ ["backend"]))
    ∧ (∀ r s, env.cwd = r ++ s →
        env.fs.hasEntry (r ++ ["backend"]) = true →
        noMarkerOnPath env.fs r s = true →
        isArtifactName (fileName r) = false →
        checkedBackendPath env = .ok (r ++ ["backend"]))
    ∧ (noMarker env.fs [] = true → noMarkerOnPath env.fs [] env.cwd = true →
        checkedBackendPath env = .error "Could not find workspace root directory") := by
  have hb : ∀ r s, env.cwd = r ++ s →
      env.fs.hasEntry (r ++ ["backend"]) = true →
      noMarkerOnPath env.fs r s = true →
      isArtifactName (fileName r) = false →
      checkedBackendPath env = .ok (r ++ ["backend"]) := by
    intro r s hcwd hback hnom hname
    have hfwr : findWorkspaceRoot env.fs (r ++ s) = .ok r :=
      findWorkspaceRoot_ascend env.fs r (by rw [hback]; simp) s hnom
    have hdev : devBackendPath env.fs env.cwd = .ok (r ++ ["backend"]) := by
      unfold devBackendPath
      rw [hcwd, hfwr]
      simp [hname]
    unfold checkedBackendPath resolveBackendPath
    simp [henv, hdev, hback]
  refine ⟨?_, hb, ?_⟩
  · intro hback hname
    have := hb env.cwd [] (by simp) hback (by simp [noMarkerOnPath]) hname
    exact this
  · intro hroot hnom
    have hfwr := findWorkspaceRoot_fail env.fs env.cwd hroot hnom
    unfold checkedBackendPath resolveBackendPath devBackendPath
    simp [henv, hfwr]

/-- C4 (witness): the three amended branches at concrete filesystems —
the root `/browser` itself, the descendant `/browser/frontend/src-tauri`,
and an unrelated directory with no marker anywhere up to the root. -/
theorem C4_workspace_location_witness :
    checkedBackendPath
        (BridgeEnv.mk true false ["browser"] []
          (FS.mk [["browser", "backend"], ["browser", "frontend"]]) (.spawnError ""))
      = .ok (["browser"] ++ ["backend"])
    ∧ checkedBackendPath
        (BridgeEnv.mk true false ["browser", "frontend", "src-tauri"] []
          (FS.mk [["browser", "backend"], ["browser", "frontend"]]) (.spawnError ""))
      = .ok (["browser"] ++ ["backend"])
    ∧ checkedBackendPath
        (BridgeEnv.mk true false ["tmp", "elsewhere"] []
          (FS.mk [["tmp"], ["tmp", "elsewhere"]]) (.spawnError ""))
      = .error "Could not find workspace root directory" :=
  ⟨(C4_workspace_location _ rfl).1 (by decide) (by decide),
    (C4_workspace_location _ rfl).2.1 ["browser"] ["frontend", "src-tauri"] rfl
      (by decide) (by decide) (by decide),
    (C4_workspace_location _ rfl).2.2 (by decide) (by decide)⟩

/-- C6 (confirmed): whenever the worker process exits with a non-zero
status, the bridge returns the command-failed error embedding the
captured stderr and stdout verbatim, no response is parsed or returned,
and the outcome does not depend on which non-zero code occurred (the
right-hand side mentions only the captured output). -/
theorem C6_nonzero_exit (env : BridgeEnv) (cmd : String) (payload : CommandPayload)
    (bp : FsPath) (code : Nat) (out err : String)
    (hbp : checkedBackendPath env = .ok bp)
    (hsp : env.spawn = .completed code out err) (hcode : code ≠ 0) :
    (call_python_backend env cmd payload).result
      = .error ("Python command failed: stderr: " ++ err ++ ", stdout: " ++ out)
    ∧ strContains ("Python command failed: stderr: " ++ err ++ ", stdout: " ++ out) err
    ∧ strContains ("Python command failed: stderr: " ++ err ++ ", stdout: " ++ out) out := by
  refine ⟨?_, ?_, ?_⟩
  · rw [call_completed hbp hsp]
    simp [hcode]
  · exact ⟨"Python command failed: stderr: ", ", stdout: " ++ out,
      by rw [String.append_assoc]⟩
  · exact ⟨"Python command failed: stderr: " ++ err ++ ", stdout: ", "",
      by rw [String.append_empty]⟩

/-- C6 (witness): a concrete exit-code-1 invocation. -/
theorem C6_nonzero_exit_witness :
    (call_python_backend
        (BridgeEnv.mk false false [] [] (FS.mk [["backend"]]) (.completed 1 "partial" "trace"))
        "hello" (CommandPayload.mk [])).result
      = .error ("Python command failed: stderr: " ++ "trace" ++ ", stdout: " ++ "partial") :=
  (C6_nonzero_exit
    (BridgeEnv.mk false false [] [] (FS.mk [["backend"]]) (.completed 1 "partial" "trace"))
    "hello" (CommandPayload.mk []) ["backend"] 1 "partial" "trace"
    rfl rfl (by decide)).1

/-- C7 (confirmed): whenever the worker process exits 0 but its stdout
is not valid JSON, or is valid JSON that is not an object, the bridge
returns a malformed-response error whose message contains the raw
stdout text verbatim. -/
theorem C7_malformed_response (env : BridgeEnv) (cmd : String) (payload : CommandPayload)
    (bp : FsPath) (out err : String)
    (hbp : checkedBackendPath env = .ok bp)
    (hsp : env.spawn = .completed 0 out err)
    (hbad : parseJson out = none ∨ ∃ v, parseJson out = some v ∧ Json.isObjV v = false) :
    ∃ msg, (call_python_backend env cmd payload).result = .error msg
      ∧ strContains msg out := by
  obtain ⟨e, hdec⟩ := decodeResponse_error_of_bad hbad
  refine ⟨"Failed to parse Python response: " ++ e ++ " (response was: " ++ out ++ ")",
    ?_, ⟨"Failed to parse Python response: " ++ e ++ " (response was: ", ")", ?_⟩⟩
  · rw [call_completed hbp hsp]
    simp [hdec]
  · rw [String.append_assoc]

/-- C7 (witness): a concrete invocation whose stdout is not JSON. -/
theorem C7_malformed_response_witness :
    ∃ msg, (call_python_backend
        (BridgeEnv.mk false false [] [] (FS.mk [["backend"]])
          (.completed 0 "not json" ""))
        "hello" (CommandPayload.mk [])).result = .error msg
      ∧ strContains msg "not json" :=
  C7_malformed_response
    (BridgeEnv.mk false false [] [] (FS.mk [["backend"]]) (.completed 0 "not json" ""))
    "hello" (CommandPayload.mk []) ["backend"] "not json" ""
    rfl rfl (Or.inl rfl)

/-- C8 (confirmed): whenever the worker process exits 0 and writes
exactly the object carrying only `success: true` to stdout, the bridge
returns a successful response whose `success` flag is `true` and in
which every optional field is `none` (absent, not present-but-empty). -/
theorem C8_minimal_success (env : BridgeEnv) (cmd : String) (payload : CommandPayload)
    (bp : FsPath) (err : String)
    (hbp : checkedBackendPath env = .ok bp)
    (hsp : env.spawn = .completed 0 "\x7b\"success\": true\x7d" err) :
    (call_python_backend env cmd payload).result = .ok { success := true } := by
  rw [call_completed hbp hsp]
  have hdec : decodeResponse "\x7b\"success\": true\x7d" = .ok { success := true } := rfl
  simp [hdec]

/-- C8 (witness): the minimal-success response at a concrete
environment. -/
theorem C8_minimal_success_witness :
    (call_python_backend
        (BridgeEnv.mk false false [] [] (FS.mk [["backend"]])
          (.completed 0 "\x7b\"success\": true\x7d" ""))
        "hello" (CommandPayload.mk [])).result = .ok { success := true } :=
  C8_minimal_success
    (BridgeEnv.mk false false [] [] (FS.mk [["backend"]])
      (.completed 0 "\x7b\"success\": true\x7d" ""))
    "hello" (CommandPayload.mk []) ["backend"] "" rfl rfl

/-- C9 (confirmed): every invocation against the same environment
writes its request to the same fixed temp path — the worker directory
joined with `temp_payload.json` — regardless of command name and
request content. -/
theorem C9_fixed_temp_path (env : BridgeEnv) (cmd1 : String) (p1 : CommandPayload)
    (cmd2 : String) (p2 : CommandPayload) :
    (call_python_backend env cmd1 p1).tempPathWritten
      = (call_python_backend env cmd2 p2).tempPathWritten
    ∧ (∀ bp, checkedBackendPath env = .ok bp →
        (call_python_backend env cmd1 p1).tempPathWritten = some (bp ++ [tempFileName])) := by
  constructor
  · rw [tempPathWritten_eq, tempPathWritten_eq]
  · intro bp hbp
    rw [tempPathWritten_eq, hbp]

/-- C9 (witness): two concrete invocations with different commands and
payloads write the same fixed temp path. -/
theorem C9_fixed_temp_path_witness :
    (call_python_backend
        (BridgeEnv.mk false false [] [] (FS.mk [["backend"]]) (.spawnError ""))
        "hello" (CommandPayload.mk [])).tempPathWritten
      = (call_python_backend
          (BridgeEnv.mk false false [] [] (FS.mk [["backend"]]) (.spawnError ""))
          "search_web" (CommandPayload.mk [("query", Json.str "x")])).tempPathWritten
    ∧ (call_python_backend
        (BridgeEnv.mk false false [] [] (FS.mk [["backend"]]) (.spawnError ""))
        "hello" (CommandPayload.mk [])).tempPathWritten
      = some (["backend"] ++ [tempFileName]) :=
  ⟨(C9_fixed_temp_path _ "hello" (CommandPayload.mk []) "search_web"
      (CommandPayload.mk [("query", Json.str "x")])).1,
    (C9_fixed_temp_path _ "hello" (CommandPayload.mk []) "search_web"
      (CommandPayload.mk [("query", Json.str "x")])).2 ["backend"] rfl⟩

/-- C10 (confirmed): in the `save_bookmark`, `get_chat_history` and
`search_web` adapters, an optional caller argument supplied as `none`
leaves its key absent from the request map (never a JSON `null`), and a
supplied argument appears under its key with exactly the supplied
value; mandatory arguments always appear with the supplied value. -/
theorem C10_optional_args_omitted (url title : String) (content : Option String)
    (session_id : Option String) (limit : Option Int)
    (query : String) (provider : Option String) (wlimit : Option Int) :
    ((save_bookmark_payload url title content).lookup "content" = content.map Json.str
      ∧ (save_bookmark_payload url title content).lookup "url" = some (.str url)
      ∧ (save_bookmark_payload url title content).lookup "title" = some (.str title))
    ∧ ((get_chat_history_payload session_id limit).lookup "session_id"
          = session_id.map Json.str
      ∧ (get_chat_history_payload session_id limit).lookup "limit" = limit.map Json.num)
    ∧ ((search_web_payload query provider wlimit).lookup "query" = some (.str query)
      ∧ (search_web_payload query provider wlimit).lookup "provider"
          = provider.map Json.str
      ∧ (search_web_payload query provider wlimit).lookup "limit"
          = wlimit.map Json.num) := by
  refine ⟨⟨?_, ?_, ?_⟩, ⟨?_, ?_⟩, ⟨?_, ?_, ?_⟩⟩
  · cases content <;> rfl
  · cases content <;> rfl
  · cases content <;> rfl
  · cases session_id <;> cases limit <;> rfl
  · cases session_id <;> cases limit <;> rfl
  · cases provider <;> cases wlimit <;> rfl
  · cases provider <;> cases wlimit <;> rfl
  · cases provider <;> cases wlimit <;> rfl
